import Mathlib

/-!
Verification of the text2sql-system question-to-SQL pipeline.

The Python sources (`text_to_sql.py`, `database.py`) are shallowly embedded
below.  Strings are modelled as `List Char`; Python string methods used by the
code (`in`, `upper`, `lower`, `strip`, `rstrip`, `replace`, `endswith`) and the
three regular expressions of the extractor are given executable models.  The
storage engine and the language model are external collaborators and appear as
function parameters (oracles).
-/

namespace T2S

/-- Characters treated as whitespace by Python `str.strip` and by `\s` in the
regular expressions, restricted to the ASCII range actually exercised here. -/
def isWS (c : Char) : Bool :=
  c = ' ' || c = '\t' || c = '\n' || c = '\r' || c = '\x0b' || c = '\x0c'

/-- Shorthand turning a Lean string literal into the `List Char` model. -/
def L (s : String) : List Char := s.data

/-- The single-quote character (written via its code point so that SQL string
literals can be assembled without quoting issues). -/
def sq : Char := Char.ofNat 39

/-- `quoted s` is the SQL literal `'s'`. -/
def quoted (s : String) : List Char := sq :: s.data ++ [sq]

/-- Model of Python `str.upper` on one character: the 26 basic latin lowercase
letters map to their uppercase forms, every other character (digits, symbols,
CJK, whitespace) is unchanged — exactly the behaviour exercised by the code. -/
def upChar (c : Char) : Char :=
  match c with
  | 'a' => 'A' | 'b' => 'B' | 'c' => 'C' | 'd' => 'D' | 'e' => 'E' | 'f' => 'F'
  | 'g' => 'G' | 'h' => 'H' | 'i' => 'I' | 'j' => 'J' | 'k' => 'K' | 'l' => 'L'
  | 'm' => 'M' | 'n' => 'N' | 'o' => 'O' | 'p' => 'P' | 'q' => 'Q' | 'r' => 'R'
  | 's' => 'S' | 't' => 'T' | 'u' => 'U' | 'v' => 'V' | 'w' => 'W' | 'x' => 'X'
  | 'y' => 'Y' | 'z' => 'Z'
  | c => c

/-- Model of Python `str.lower` on one character (inverse table of `upChar`). -/
def downChar (c : Char) : Char :=
  match c with
  | 'A' => 'a' | 'B' => 'b' | 'C' => 'c' | 'D' => 'd' | 'E' => 'e' | 'F' => 'f'
  | 'G' => 'g' | 'H' => 'h' | 'I' => 'i' | 'J' => 'j' | 'K' => 'k' | 'L' => 'l'
  | 'M' => 'm' | 'N' => 'n' | 'O' => 'o' | 'P' => 'p' | 'Q' => 'q' | 'R' => 'r'
  | 'S' => 's' | 'T' => 't' | 'U' => 'u' | 'V' => 'v' | 'W' => 'w' | 'X' => 'x'
  | 'Y' => 'y' | 'Z' => 'z'
  | c => c

/-- Python `s.upper()`. -/
def pyUpper (s : List Char) : List Char := s.map upChar

/-- Python `s.lower()`. -/
def pyLower (s : List Char) : List Char := s.map downChar

/-- Python `pat in hay` (substring membership). -/
def strIn (pat : List Char) : List Char → Bool
  | [] => pat.isEmpty
  | c :: t => pat.isPrefixOf (c :: t) || strIn pat t

/-- Removal of a trailing run of characters satisfying `p`
(the recursive model of Python `str.rstrip`). -/
def rstripP (p : Char → Bool) : List Char → List Char
  | [] => []
  | c :: t =>
    let r := rstripP p t
    if r.isEmpty && p c then [] else c :: r

/-- Python `s.strip()` (whitespace from both ends). -/
def pyStrip (s : List Char) : List Char :=
  rstripP isWS (s.dropWhile fun c => isWS c)

/-- Python `s.rstrip(chars)` for a single strip character. -/
def pyRstripChar (ch : Char) (s : List Char) : List Char :=
  rstripP (fun c => c = ch) s

/-- Model of `re.sub(r'\s+', ' ', s)`: every maximal run of whitespace
collapses to a single space (emitted at the last character of the run). -/
def collapseWS : List Char → List Char
  | [] => []
  | [c] => if isWS c then [' '] else [c]
  | c :: d :: t =>
    if isWS c && isWS d then collapseWS (d :: t)
    else (if isWS c then ' ' else c) :: collapseWS (d :: t)

/-- `if not sql.endswith(';'): sql += ';'`. -/
def ensureSemi (s : List Char) : List Char :=
  if [';'].isSuffixOf s then s else s ++ [';']

/-- Python `s.replace(c, rep)` for a one-character pattern. -/
def replaceChar (ch : Char) (rep : List Char) : List Char → List Char
  | [] => []
  | c :: t => (if c = ch then rep else [c]) ++ replaceChar ch rep t

/-! ## Intent analyzer (`_analyze_question_intent`) -/

/-- One `{field, operator, value}` condition triple. -/
structure Cond where
  field : List Char
  op : List Char
  value : List Char
deriving Repr, DecidableEq

/-- The intent record built by `_analyze_question_intent`. -/
structure Intent where
  tables : List (List Char)
  conditions : List Cond
  aggregations : Bool
  join_required : Bool
deriving Repr, DecidableEq

/-- Model of `re.search(r'[trigs](\d+)', s)`: scan left to right for the first
character of the class followed by at least one ASCII digit; the captured group
is the maximal digit run after it (`\d+` is greedy). Returns `none` when no
position matches. -/
def searchNumAfter (trigs : List Char) : List Char → Option (List Char)
  | [] => none
  | c :: t =>
    if c ∈ trigs && (match t with | d :: _ => d.isDigit | [] => false) then
      some (t.takeWhile Char.isDigit)
    else searchNumAfter trigs t

/-- `_analyze_question_intent(question)`.  The Python original collects table
names in a `set` and converts it to a list; the iteration order of that set is
implementation defined, so the embedding fixes the users/products/orders
insertion order (no claim depends on the order). -/
def analyze_question_intent (q : List Char) : Intent :=
  let ql := pyLower q
  let tables :=
    (if [L ("用户"), L ("会员"), L ("客户")].any (fun w => strIn w ql) then [L ("users")] else []) ++
    (if [L ("商品"), L ("产品"), L ("价格"), L ("库存")].any (fun w => strIn w ql) then [L ("products")] else []) ++
    (if [L ("订单"), L ("购买"), L ("交易")].any (fun w => strIn w ql) then [L ("orders")] else [])
  let join_required := decide (1 < tables.length)
  let aggregations :=
    [L ("统计"), L ("总数"), L ("平均"), L ("最多"), L ("最少"), L ("合计"), L ("总和")].any
      (fun w => strIn w ql)
  let conditions :=
    (if strIn (L ("张三")) q then
      [⟨L ("users.username"), L ("="), quoted ("张三")⟩] else []) ++
    (if strIn (L ("李四")) q then
      [⟨L ("users.username"), L ("="), quoted ("李四")⟩] else []) ++
    (if strIn (L ("手机")) ql then
      [⟨L ("products.category"), L ("="), quoted ("手机")⟩] else []) ++
    (if strIn (L ("电脑")) ql then
      [⟨L ("products.category"), L ("="), quoted ("电脑")⟩] else []) ++
    (if strIn (L ("高于")) ql || strIn (L ("大于")) ql then
      match searchNumAfter (L ("高于大于")) q with
      | some d => [⟨L ("products.price"), L (">"), d⟩]
      | none => []
    else [])
  { tables := tables, conditions := conditions,
    aggregations := aggregations, join_required := join_required }

/-! ## Fallback SQL generator (`_generate_sql_by_intent`) -/

def catSql (cat : String) : List Char :=
  L ("SELECT * FROM products WHERE category = ") ++ quoted cat ++ L (";")

def nameOrdersSql (name : String) : List Char :=
  L ("SELECT o.* FROM orders o JOIN users u ON o.user_id = u.user_id WHERE u.username = ")
    ++ quoted name ++ L (";")

def userOrderCountSql : List Char :=
  L ("SELECT u.username, COUNT(o.order_id) as order_count FROM users u LEFT JOIN orders o ON u.user_id = o.user_id GROUP BY u.user_id, u.username;")

def catCountSql : List Char :=
  L ("SELECT category, COUNT(*) as product_count FROM products GROUP BY category;")

def defaultSql : List Char := L ("SELECT * FROM order_details LIMIT 10;")

/-- `_generate_sql_by_intent(question, intent)`.  The `intent` argument is
accepted but unused, as in the source.  Python arms that fall through without
returning (price phrase with no captured digits, aggregation keyword with no
matching sub-case) reach the final `return` of the function; the embedding
writes that default in those spots. -/
def generate_sql_by_intent (q : List Char) (_intent : Intent) : List Char :=
  if strIn (L ("所有用户")) q then L ("SELECT * FROM users;")
  else if strIn (L ("所有商品")) q then L ("SELECT * FROM products;")
  else if strIn (L ("所有订单")) q then L ("SELECT * FROM orders;")
  else if strIn (L ("张三")) q && strIn (L ("订单")) q then nameOrdersSql ("张三")
  else if strIn (L ("李四")) q && strIn (L ("订单")) q then nameOrdersSql ("李四")
  else if strIn (L ("手机")) (pyLower q) then catSql ("手机")
  else if strIn (L ("电脑")) (pyLower q) then catSql ("电脑")
  else if strIn (L ("平板")) (pyLower q) then catSql ("平板")
  else if strIn (L ("价格高于")) q || strIn (L ("价格大于")) q then
    match searchNumAfter (L ("高于大于")) q with
    | some d => L ("SELECT * FROM products WHERE price > ") ++ d ++ L (";")
    | none => defaultSql
  else if strIn (L ("价格低于")) q || strIn (L ("价格小于")) q then
    match searchNumAfter (L ("低于小于")) q with
    | some d => L ("SELECT * FROM products WHERE price < ") ++ d ++ L (";")
    | none => defaultSql
  else if strIn (L ("统计")) q || strIn (L ("总数")) q then
    if strIn (L ("用户")) q && strIn (L ("订单")) q then userOrderCountSql
    else if strIn (L ("分类")) q && strIn (L ("商品")) q then catCountSql
    else if strIn (L ("订单")) q then L ("SELECT COUNT(*) as total_orders FROM orders;")
    else defaultSql
  else if strIn (L ("详情")) q || strIn (L ("详细")) q then L ("SELECT * FROM order_details;")
  else defaultSql

/-! ## SQL extractor (`_extract_sql_advanced`, `_validate_sql_candidate`) -/

/-- Case-insensitive prefix test (all the extractor patterns carry
`re.IGNORECASE`). -/
def ciStartsWith (pat l : List Char) : Bool :=
  (pat.map downChar).isPrefixOf (l.map downChar)

/-- Model of `re.sub(pat + r'\s*', '', text)` for a literal `pat` matched
case-insensitively: each occurrence of `pat` together with the following
whitespace run is deleted, scanning left to right and resuming after the
removed region.  A fuel argument (one unit per consumed character) keeps the
recursion structural; `fuel = text.length` always suffices. -/
def subRemoveAux (pat : List Char) : Nat → List Char → List Char
  | 0, l => l
  | _ + 1, [] => []
  | fuel + 1, c :: t =>
    if ciStartsWith pat (c :: t) then
      subRemoveAux pat fuel (((c :: t).drop pat.length).dropWhile fun x => isWS x)
    else c :: subRemoveAux pat fuel t

def subRemove (pat : List Char) (l : List Char) : List Char :=
  subRemoveAux pat l.length l

/-- The two cleaning passes at the top of `_extract_sql_advanced`. -/
def cleanText (text : List Char) : List Char :=
  subRemove (L ("```")) (subRemove (L ("```sql")) text)

/-- Does the text start with `SELECT` (any case) followed by one whitespace
character?  This is where every extractor pattern `SELECT\s+…` can match. -/
def selWsAt (l : List Char) : Bool :=
  ciStartsWith (L ("SELECT")) l &&
    (match l.drop 6 with | d :: _ => isWS d | [] => false)

/-- Split a list at its first `';'`, returning the part up to and including the
semicolon and the remainder. -/
def splitAfterSemi : List Char → Option (List Char × List Char)
  | [] => none
  | c :: t =>
    if c = ';' then some ([c], t)
    else match splitAfterSemi t with
      | some (m, r) => some (c :: m, r)
      | none => none

/-- `re.findall(r'(SELECT\s+.*?;)', text, re.IGNORECASE | re.DOTALL)`: from each
match position (a `SELECT` followed by whitespace) the lazy `.*?;` runs to the
first semicolon; scanning resumes after it.  If no semicolon lies ahead the
pattern can match nowhere further.  Fueled as in `subRemoveAux`. -/
def findall1Aux : Nat → List Char → List (List Char)
  | 0, _ => []
  | _ + 1, [] => []
  | fuel + 1, c :: t =>
    if selWsAt (c :: t) then
      match splitAfterSemi (c :: t) with
      | some (m, r) => m :: findall1Aux fuel r
      | none => []
    else findall1Aux fuel t

def findall1 (l : List Char) : List (List Char) := findall1Aux l.length l

/-- Characters up to (excluding) the next position where `SELECT` starts
(case-insensitively), or to the end of the text. -/
def upToSelect : Nat → List Char → List Char
  | 0, _ => []
  | _ + 1, [] => []
  | fuel + 1, c :: t =>
    if ciStartsWith (L ("SELECT")) (c :: t) then []
    else c :: upToSelect fuel t

/-- The region matched by `SELECT\s+.*?(?=SELECT|$)` at a position where
`selWsAt` holds: at least the seven characters `SELECT` + one whitespace, then
lazily up to the next `SELECT` or the end of the text. -/
def tier2Take (l : List Char) : List Char :=
  l.take 7 ++ upToSelect (l.drop 7).length (l.drop 7)

/-- `re.findall(r'(SELECT\s+.*?(?=SELECT|$))', text, re.IGNORECASE|re.DOTALL)`. -/
def findall2Aux : Nat → List Char → List (List Char)
  | 0, _ => []
  | _ + 1, [] => []
  | fuel + 1, c :: t =>
    if selWsAt (c :: t) then
      let m := tier2Take (c :: t)
      m :: findall2Aux fuel ((c :: t).drop m.length)
    else findall2Aux fuel t

def findall2 (l : List Char) : List (List Char) := findall2Aux l.length l

/-- `re.findall(r'(SELECT\s+.*)', text, re.IGNORECASE|re.DOTALL)`: the greedy
`.*` makes the first match run to the end of the text, so at most one match. -/
def findall3 : List Char → List (List Char)
  | [] => []
  | c :: t => if selWsAt (c :: t) then [c :: t] else findall3 t

/-- `_validate_sql_candidate(sql)`. -/
def validate_sql_candidate (sql : List Char) : Bool :=
  let u := pyUpper sql
  if !(strIn (L ("SELECT")) u) || !(strIn (L ("FROM")) u) then false
  else if strIn (L ("SELECT FROM")) u then false
  else if !([L ("users"), L ("products"), L ("orders"), L ("order_details")].any
      fun tbl => strIn (pyUpper tbl) u) then false
  else if strIn (L ("JOIN")) u && !(strIn (L ("ON")) u) then false
  else true

/-- The per-pattern inner loop of `_extract_sql_advanced`: strip each match,
return the first one passing `_validate_sql_candidate` with a final `';'`
ensured. -/
def firstValidated : List (List Char) → Option (List Char)
  | [] => none
  | m :: rest =>
    let cand := pyStrip m
    if validate_sql_candidate cand then some (ensureSemi cand)
    else firstValidated rest

/-- `_extract_sql_advanced(text)`: clean the fencing markers, then try the
three patterns most-specific first; a looser pattern is consulted only when
every match of the earlier one fails validation. -/
def extract_sql_advanced (text : List Char) : Option (List Char) :=
  let t := cleanText text
  match firstValidated (findall1 t) with
  | some s => some s
  | none =>
    match firstValidated (findall2 t) with
    | some s => some s
    | none => firstValidated (findall3 t)

/-! ## SQL post-processor (`_post_process_sql`) -/

/-- `_post_process_sql(sql, question)`: collapse whitespace, trim, ensure the
trailing `';'`; then the repair heuristic — if the question mentions 张三, the
SQL does not, the (uppercased) SQL contains the lowercase literal `users` and
no `WHERE`, inject `WHERE username = '张三'` at every `';'`. -/
def post_process_sql (sql0 q : List Char) : List Char :=
  let sql := pyStrip (collapseWS sql0)
  let sql := ensureSemi sql
  let sqlU := pyUpper sql
  if strIn (L ("张三")) q && !(strIn (L ("张三")) sql) then
    if strIn (L ("users")) sqlU && !(strIn (L ("WHERE")) sqlU) then
      replaceChar ';' (L (" WHERE username = ") ++ quoted ("张三") ++ L (";")) sql
    else sql
  else sql

/-! ## SQL validator (`Database.validate_sql`), storage oracles -/

def dangerous_keywords : List (List Char) :=
  [L ("INSERT"), L ("UPDATE"), L ("DELETE"), L ("DROP"), L ("ALTER"),
   L ("CREATE"), L ("TRUNCATE")]

/-- The rejection message `f'不允许执行 {keyword} 操作，仅支持 SELECT 查询'`. -/
def forbiddenMsg (k : List Char) : List Char :=
  L ("不允许执行 ") ++ k ++ L (" 操作，仅支持 SELECT 查询")

/-- `Database.validate_sql(sql)`.  The dry-run against the storage engine
(`EXPLAIN QUERY PLAN …` on a fresh sqlite cursor) is an external collaborator,
modelled as an oracle returning `none` on success or `some err` on an engine
error.  The security scan runs first and short-circuits. -/
def validate_sql (dryRun : List Char → Option (List Char)) (sql : List Char) :
    Bool × Option (List Char) :=
  let sqlUpper := pyUpper (pyStrip sql)
  match dangerous_keywords.find? (fun k => strIn k sqlUpper) with
  | some k => (false, some (forbiddenMsg k))
  | none =>
    let sqlClean := pyStrip (pyRstripChar ';' sql)
    match dryRun (L ("EXPLAIN QUERY PLAN ") ++ sqlClean) with
    | none => (true, none)
    | some e => (false, some e)

/-! ## Query results and the summarizer (`_generate_intelligent_summary`) -/

/-- A value in a result row (sqlite delivers strings and integers here);
`PyVal.str` is Python `f"{value}"`. -/
inductive PyVal where
  | s (v : List Char)
  | i (v : Int)
deriving Repr, DecidableEq

def PyVal.str : PyVal → List Char
  | .s v => v
  | .i v => (toString v).data

/-- A row as an ordered field-to-value mapping (a Python `dict`). -/
abbrev Row := List (List Char × PyVal)

/-- `row[k]` (dict lookup; rows built from a dict have distinct keys). -/
def dictGet (row : Row) (k : List Char) : PyVal :=
  match row.find? (fun p => p.1 == k) with
  | some p => p.2
  | none => PyVal.s []

/-- The dictionary returned by `Database.execute_query`: on an engine error it
carries `success=False` with the message, never raising. -/
structure ExecResult where
  success : Bool
  error : Option (List Char) := none
  columns : List (List Char) := []
  data : List Row := []
  row_count : Nat := 0
deriving Repr, DecidableEq

/-- `_generate_intelligent_summary(question, sql, result)`.  Python arms whose
inner scan finds nothing fall through to the final default phrasing; the
embedding writes that default in those spots. -/
def generate_intelligent_summary (q _sql : List Char) (result : ExecResult) :
    List Char :=
  if !result.success then L ("查询执行失败: ") ++ result.error.getD (L ("未知错误"))
  else if result.row_count = 0 then L ("未找到匹配的数据。")
  else
    let ql := pyLower q
    let data := result.data
    let dflt :=
      if result.row_count = 1 then L ("查询完成，找到1条匹配记录。")
      else L ("查询完成，共找到") ++ (toString result.row_count).data ++ L ("条匹配记录。")
    if strIn (L ("统计")) ql || strIn (L ("总数")) ql || strIn (L ("数量")) ql then
      match data with
      | [] => dflt
      | r0 :: _ =>
        if r0.length = 2 then
          let parts := data.filterMap fun row =>
            let ks := row.map Prod.fst
            if ks.length = 2 then
              some (PyVal.str (dictGet row (ks.getD 0 [])) ++ L (": ") ++
                    PyVal.str (dictGet row (ks.getD 1 [])))
            else none
          if parts.isEmpty then dflt
          else L ("统计结果: ") ++ List.intercalate (L (", ")) parts
        else dflt
    else if strIn (L ("平均")) ql then
      match data with
      | [] => dflt
      | r0 :: _ =>
        match r0.find? (fun p => strIn (L ("avg")) (pyLower p.1)) with
        | some p => L ("平均值为: ") ++ PyVal.str p.2
        | none => dflt
    else if strIn (L ("最多")) ql || strIn (L ("最高")) ql then
      match data with
      | [] => dflt
      | r0 :: _ =>
        match r0.find? (fun p => strIn (L ("max")) (pyLower p.1)) with
        | some p => L ("最大值为: ") ++ PyVal.str p.2
        | none => dflt
    else if strIn (L ("最少")) ql || strIn (L ("最低")) ql then
      match data with
      | [] => dflt
      | r0 :: _ =>
        match r0.find? (fun p => strIn (L ("min")) (pyLower p.1)) with
        | some p => L ("最小值为: ") ++ PyVal.str p.2
        | none => dflt
    else dflt

/-! ## Prompt builder (`_build_context_aware_prompt`) -/

structure ColInfo where
  name : List Char
  ty : List Char
  description : List Char

structure TableInfo where
  name : List Char
  description : List Char
  columns : List ColInfo

/-- The static schema catalog (`_get_detailed_schema_info`); the prompt builder
only consumes each column's name, declared type and description, so the
pk/fk/sample metadata of the source dictionary is not re-listed here. -/
def schema_tables : List TableInfo :=
  [⟨L ("users"), L ("用户信息表"),
    [⟨L ("user_id"), L ("INTEGER"), L ("用户ID")⟩,
     ⟨L ("username"), L ("VARCHAR(50)"), L ("用户名")⟩,
     ⟨L ("email"), L ("VARCHAR(100)"), L ("邮箱")⟩,
     ⟨L ("created_at"), L ("DATETIME"), L ("创建时间")⟩]⟩,
   ⟨L ("products"), L ("商品信息表"),
    [⟨L ("product_id"), L ("INTEGER"), L ("商品ID")⟩,
     ⟨L ("name"), L ("VARCHAR(100)"), L ("商品名称")⟩,
     ⟨L ("price"), L ("DECIMAL(10,2)"), L ("价格")⟩,
     ⟨L ("stock"), L ("INTEGER"), L ("库存")⟩,
     ⟨L ("category"), L ("VARCHAR(50)"), L ("分类")⟩,
     ⟨L ("description"), L ("TEXT"), L ("描述")⟩,
     ⟨L ("created_at"), L ("DATETIME"), L ("创建时间")⟩]⟩,
   ⟨L ("orders"), L ("订单表"),
    [⟨L ("order_id"), L ("INTEGER"), L ("订单ID")⟩,
     ⟨L ("user_id"), L ("INTEGER"), L ("用户ID")⟩,
     ⟨L ("product_id"), L ("INTEGER"), L ("商品ID")⟩,
     ⟨L ("quantity"), L ("INTEGER"), L ("数量")⟩,
     ⟨L ("total_amount"), L ("DECIMAL(10,2)"), L ("总金额")⟩,
     ⟨L ("order_date"), L ("DATETIME"), L ("订单日期")⟩]⟩,
   ⟨L ("order_details"), L ("订单详情视图"),
    [⟨L ("order_id"), L ("INTEGER"), L ("订单ID")⟩,
     ⟨L ("username"), L ("VARCHAR(50)"), L ("用户名")⟩,
     ⟨L ("email"), L ("VARCHAR(100)"), L ("邮箱")⟩,
     ⟨L ("product_name"), L ("VARCHAR(100)"), L ("商品名")⟩,
     ⟨L ("unit_price"), L ("DECIMAL(10,2)"), L ("单价")⟩,
     ⟨L ("quantity"), L ("INTEGER"), L ("数量")⟩,
     ⟨L ("total_amount"), L ("DECIMAL(10,2)"), L ("总金额")⟩,
     ⟨L ("order_date"), L ("DATETIME"), L ("订单日期")⟩]⟩]

/-- The declared relationships (`schema_info['relationships']`). -/
def schema_relationships : List (List Char × List Char) :=
  [(L ("orders.user_id"), L ("users.user_id")),
   (L ("orders.product_id"), L ("products.product_id"))]

/-- `f"{col['name']} ({col['type']}) - {col['description']}"`. -/
def colDescText (c : ColInfo) : List Char :=
  c.name ++ L (" (") ++ c.ty ++ L (") - ") ++ c.description

/-- `f"{table_name}表({description}): {', '.join(cols)}"`. -/
def tableDescText (t : TableInfo) : List Char :=
  t.name ++ L ("表(") ++ t.description ++ L ("): ") ++
    List.intercalate (L (", ")) (t.columns.map colDescText)

/-- `_get_table_relationships()`. -/
def table_relationships : List Char :=
  List.intercalate (L ("\n"))
    (schema_relationships.map fun rel =>
      (rel.1.takeWhile fun c => c ≠ '.') ++ L (" 表通过 ") ++ rel.1 ++
        L (" 关联 ") ++ (rel.2.takeWhile fun c => c ≠ '.') ++ L (" 表的 ") ++ rel.2)

/-- `_build_context_aware_prompt(question)`: the fixed instruction template
with the flattened schema, relationships, rules, examples and the question. -/
def build_context_aware_prompt (q : List Char) : List Char :=
  L ("你是一个专业的SQL专家。请根据下面的数据库结构和用户问题，生成准确可执行的SQL查询。\n\n数据库表结构：\n") ++
  List.intercalate (L ("\n")) (schema_tables.map tableDescText) ++
  L ("\n\n表关系：\n") ++ table_relationships ++
  L ("\n\n查询规则：\n1. 使用明确的表别名（如 users u, orders o）\n2. 多表查询必须使用JOIN并指定关联条件\n3. 字符串值使用单引号，数字直接使用\n4. 日期比较使用标准格式：") ++
  quoted ("YYYY-MM-DD") ++
  L ("\n5. 聚合查询要包含GROUP BY\n6. 只生成SELECT语句，不要其他操作\n\n字段映射参考：\n- 用户相关：用户名→username, 邮箱→email, 用户ID→user_id\n- 商品相关：商品名→name, 价格→price, 分类→category, 库存→stock\n- 订单相关：数量→quantity, 总金额→total_amount, 订单日期→order_date\n\n示例转换：\n问题：查询用户张三的所有订单\nSQL：SELECT o.* FROM orders o JOIN users u ON o.user_id = u.user_id WHERE u.username = ") ++
  quoted ("张三") ++
  L (";\n\n问题：统计每个分类的商品数量\nSQL：SELECT category, COUNT(*) as product_count FROM products GROUP BY category;\n\n问题：查找价格高于5000的商品\nSQL：SELECT * FROM products WHERE price > 5000;\n\n问题：查询订单详情，包括用户名和商品名\nSQL：SELECT o.order_id, u.username, p.name as product_name, o.quantity, o.total_amount, o.order_date \n     FROM orders o \n     JOIN users u ON o.user_id = u.user_id \n     JOIN products p ON o.product_id = p.product_id;\n\n现在请为以下问题生成SQL：\n问题：") ++
  q ++ L ("\nSQL：")

/-! ## Orchestrator (`convert`, `_smart_fallback`) -/

/-- The final conversion dictionary; keys absent from the Python dict on a
given path are `none`. -/
structure ConvResult where
  success : Bool
  question : List Char
  sql : Option (List Char) := none
  result : Option ExecResult := none
  summary : Option (List Char) := none
  method : Option (List Char) := none
  intent_analysis : Option Intent := none
  error : Option (List Char) := none
deriving Repr, DecidableEq

/-- Observable calls into the storage collaborator, in order: the pipeline is
instrumented with a trace so that temporal claims (what was validated, what was
executed) are statable. -/
inductive Event where
  | validateEv (sql : List Char)
  | executeEv (sql : List Char)
deriving Repr, DecidableEq

/-- `_smart_fallback(question)`: generate by intent, execute directly (no
validation), summarize; always `success=True`. -/
def smart_fallback (execQ : List Char → ExecResult) (q : List Char) :
    ConvResult × List Event :=
  let intent := analyze_question_intent q
  let sql := generate_sql_by_intent q intent
  let res := execQ sql
  let summ := generate_intelligent_summary q sql res
  ({ success := true, question := q, sql := some sql, result := some res,
     summary := some summ, method := some (L ("intent_based_fallback")),
     intent_analysis := some intent }, [Event.executeEv sql])

/-- `TextToSQL.convert(question)`.  `modelAvailable` models
`self.model is None or self.tokenizer is None`; `generate` is the language
model collaborator (`_generate_sql`, returning `""` on failure); `dryRun` and
`execQ` are the storage collaborator.  Empty questions and raised exceptions
are out of scope of this pure model (the oracles are total). -/
def convert (modelAvailable : Bool) (generate : List Char → List Char)
    (dryRun : List Char → Option (List Char)) (execQ : List Char → ExecResult)
    (q : List Char) : ConvResult × List Event :=
  if !modelAvailable then smart_fallback execQ q
  else
    let intent := analyze_question_intent q
    let generated := generate (build_context_aware_prompt q)
    if generated.isEmpty then smart_fallback execQ q
    else
      match extract_sql_advanced generated with
      | none => smart_fallback execQ q
      | some sql0 =>
        let sql := post_process_sql sql0 q
        let v := validate_sql dryRun sql
        if !v.1 then
          ({ success := false,
             error := some (L ("SQL语法错误: ") ++ v.2.getD []),
             question := q, sql := some sql }, [Event.validateEv sql])
        else
          let res := execQ sql
          let summ := generate_intelligent_summary q sql res
          ({ success := true, question := q, sql := some sql, result := some res,
             summary := some summ, method := some (L ("llm")),
             intent_analysis := some intent },
           [Event.validateEv sql, Event.executeEv sql])

/-! ## Verification-side definitions -/

/-- `c` and the head of `t` (when `t` is nonempty) are not both whitespace. -/
def headNotWW (c : Char) : List Char → Bool
  | [] => true
  | d :: _ => !(isWS c && isWS d)

/-- Normal form of whitespace-collapsed text: every whitespace character is a
single space and no two adjacent characters are both whitespace. -/
def normed : List Char → Bool
  | [] => true
  | c :: t => ((!isWS c) || (c = ' ')) && headNotWW c t && normed t

/-! # Lemmas -/

/-- `strIn` decides substring containment. -/
theorem strIn_iff {p h : List Char} : strIn p h = true ↔ p <:+: h := by
  induction h with
  | nil => simp [strIn, List.isEmpty_iff]
  | cons c t ih =>
    simp [strIn, List.infix_cons_iff, ih, Bool.or_eq_true]

theorem strIn_eq_false_iff {p h : List Char} : strIn p h = false ↔ ¬ p <:+: h := by
  rw [← strIn_iff]; cases strIn p h <;> simp

/-- An `upChar` image is never the (lowercase) letter `u`. -/
theorem upChar_ne_u (c : Char) : upChar c ≠ 'u' := by
  unfold upChar
  split <;> simp_all

/-- `upChar` maps whitespace to itself and never to whitespace. -/
theorem isWS_upChar (c : Char) : isWS (upChar c) = isWS c := by
  unfold upChar
  split <;> rfl

/-- The lowercase literal `users` can never occur in an uppercased string:
this is why the repair heuristic of `_post_process_sql` is unreachable. -/
theorem strIn_users_pyUpper (s : List Char) :
    strIn (L ("users")) (pyUpper s) = false := by
  rw [strIn_eq_false_iff]
  intro h
  have hu : 'u' ∈ pyUpper s := h.subset (by decide)
  rcases List.mem_map.1 hu with ⟨a, _, ha⟩
  exact upChar_ne_u a ha

/-- A nonempty pattern with no whitespace characters that occurs in `a ++ l`
where `a` is all whitespace occurs in `l`. -/
theorem infix_of_infix_ws_append {k l : List Char} (a : List Char)
    (hk : k ≠ []) (hkws : ∀ c ∈ k, isWS c = false)
    (ha : ∀ c ∈ a, isWS c = true) (h : k <:+: a ++ l) : k <:+: l := by
  induction a with
  | nil => simpa using h
  | cons x a ih =>
    rcases List.infix_cons_iff.1 h with hpre | hinf
    · cases k with
      | nil => exact absurd rfl hk
      | cons k0 ks =>
        rcases List.cons_prefix_cons.1 hpre with ⟨rfl, -⟩
        have := hkws k0 (by simp)
        have := ha k0 (by simp)
        simp_all
    · exact ih (fun c hc => ha c (by simp [hc])) hinf

/-- Mirror of `infix_of_infix_ws_append` for an all-whitespace right context. -/
theorem infix_of_infix_append_ws {k l : List Char} (a : List Char)
    (hk : k ≠ []) (hkws : ∀ c ∈ k, isWS c = false)
    (ha : ∀ c ∈ a, isWS c = true) (h : k <:+: l ++ a) : k <:+: l := by
  rw [← List.reverse_infix] at h ⊢
  rw [List.reverse_append] at h
  refine infix_of_infix_ws_append a.reverse ?_ ?_ ?_ h
  · simpa using hk
  · intro c hc; exact hkws c (List.mem_reverse.1 hc)
  · intro c hc; exact ha c (List.mem_reverse.1 hc)

/-- `rstripP` removes a trailing run of `p`-characters. -/
theorem rstripP_decomp (p : Char → Bool) (l : List Char) :
    ∃ b, l = rstripP p l ++ b ∧ ∀ x ∈ b, p x = true := by
  induction l with
  | nil => exact ⟨[], rfl, by simp⟩
  | cons c t ih =>
    rcases ih with ⟨b, hb, hbp⟩
    by_cases hc : (rstripP p t).isEmpty ∧ p c = true
    · refine ⟨c :: b, ?_, ?_⟩
      · have : rstripP p (c :: t) = [] := by
          simp only [rstripP]; rw [if_pos (by simp [hc.1, hc.2])]
        rw [this]
        simpa using by
          rw [hb, List.isEmpty_iff.1 hc.1, List.nil_append]
      · intro x hx
        rcases List.mem_cons.1 hx with rfl | hx
        · exact hc.2
        · exact hbp x hx
    · refine ⟨b, ?_, hbp⟩
      have : rstripP p (c :: t) = c :: rstripP p t := by
        simp only [rstripP]
        rw [if_neg]
        intro hcon
        exact hc (by simpa [Bool.and_eq_true] using hcon)
      rw [this, List.cons_append, ← hb]

/-- `pyStrip` splits off an all-whitespace prefix and suffix. -/
theorem pyStrip_decomp (s : List Char) :
    ∃ a b, s = a ++ pyStrip s ++ b ∧ (∀ c ∈ a, isWS c = true) ∧
      ∀ c ∈ b, isWS c = true := by
  rcases rstripP_decomp isWS (s.dropWhile fun c => isWS c) with ⟨b, hb, hbp⟩
  refine ⟨s.takeWhile fun c => isWS c, b, ?_, ?_, hbp⟩
  · conv_lhs => rw [← List.takeWhile_append_dropWhile (p := fun c => isWS c) (l := s)]
    rw [hb, pyStrip, List.append_assoc]
  · intro c hc
    exact List.mem_takeWhile_imp hc

/-- Keyword containment survives `strip`:  if a nonempty whitespace-free
pattern occurs in the uppercased text it occurs in the uppercased stripped
text. -/
theorem infix_pyUpper_pyStrip {k s : List Char} (hk : k ≠ [])
    (hkws : ∀ c ∈ k, isWS c = false) (h : k <:+: pyUpper s) :
    k <:+: pyUpper (pyStrip s) := by
  rcases pyStrip_decomp s with ⟨a, b, hs, hwa, hb⟩
  have hmap : pyUpper s = pyUpper a ++ pyUpper (pyStrip s) ++ pyUpper b := by
    conv_lhs => rw [hs]
    simp [pyUpper]
  rw [hmap, List.append_assoc] at h
  have h1 : k <:+: pyUpper (pyStrip s) ++ pyUpper b :=
    infix_of_infix_ws_append (pyUpper a) hk hkws
      (by
        intro c hc
        rcases List.mem_map.1 hc with ⟨x, hx, rfl⟩
        rw [isWS_upChar]; exact hwa x hx) h
  exact infix_of_infix_append_ws (pyUpper b) hk hkws
    (by
      intro c hc
      rcases List.mem_map.1 hc with ⟨x, hx, rfl⟩
      rw [isWS_upChar]; exact hb x hx) h1

/-- Every blacklisted keyword is nonempty and whitespace-free. -/
theorem dangerous_keywords_shape :
    ∀ k ∈ dangerous_keywords, k ≠ [] ∧ ∀ c ∈ k, isWS c = false := by
  decide

/-! # Claims -/

/-- C2: any input containing a blacklisted keyword as a case-insensitive
substring (equivalently: containing the uppercase keyword in its uppercased
form) is rejected by `validate_sql` with the forbidden-operation message, for
every behaviour of the dry-run collaborator (so before any dry-run or
execution); conversely any input that passes `validate_sql` contains no
blacklisted keyword case-insensitively. -/
theorem validate_sql_security_gate (sql : List Char)
    (dryRun : List Char → Option (List Char)) :
    (∀ k ∈ dangerous_keywords, k <:+: pyUpper sql →
       (validate_sql dryRun sql).1 = false ∧
       ∃ k0 ∈ dangerous_keywords,
         (validate_sql dryRun sql).2 = some (forbiddenMsg k0))
    ∧ ((validate_sql dryRun sql).1 = true →
       ∀ k ∈ dangerous_keywords, ¬ k <:+: pyUpper sql) := by
  constructor
  · intro k hk hinf
    obtain ⟨hne, hws⟩ := dangerous_keywords_shape k hk
    have h2 : strIn k (pyUpper (pyStrip sql)) = true :=
      strIn_iff.2 (infix_pyUpper_pyStrip hne hws hinf)
    cases hfind : dangerous_keywords.find?
        (fun k => strIn k (pyUpper (pyStrip sql))) with
    | none =>
      exact absurd h2 (by simpa using List.find?_eq_none.1 hfind k hk)
    | some k0 =>
      have hv : validate_sql dryRun sql = (false, some (forbiddenMsg k0)) := by
        simp only [validate_sql, hfind]
      rw [hv]
      exact ⟨rfl, k0, List.mem_of_find?_eq_some hfind, rfl⟩
  · intro htrue k hk hinf
    obtain ⟨hne, hws⟩ := dangerous_keywords_shape k hk
    have h2 : strIn k (pyUpper (pyStrip sql)) = true :=
      strIn_iff.2 (infix_pyUpper_pyStrip hne hws hinf)
    cases hfind : dangerous_keywords.find?
        (fun k => strIn k (pyUpper (pyStrip sql))) with
    | none =>
      exact absurd h2 (by simpa using List.find?_eq_none.1 hfind k hk)
    | some k0 =>
      have hv : validate_sql dryRun sql = (false, some (forbiddenMsg k0)) := by
        simp only [validate_sql, hfind]
      rw [hv] at htrue
      simp at htrue

/-- C2 witness: the blacklist fires on
`SELECT * FROM users; DROP TABLE users;` whatever the dry-run does. -/
theorem validate_sql_security_gate_witness :
    (validate_sql (fun _ => none)
      (L ("SELECT * FROM users; DROP TABLE users;"))).1 = false :=
  ((validate_sql_security_gate (L ("SELECT * FROM users; DROP TABLE users;"))
      (fun _ => none)).1 (L ("DROP")) (by decide) (by decide)).1

/-- The repair branch of `_post_process_sql` is dead code (`'users' in
sql_upper` tests a lowercase literal against an uppercased string), so
post-processing only normalizes whitespace and the trailing separator. -/
theorem post_process_sql_eq (s q : List Char) :
    post_process_sql s q = ensureSemi (pyStrip (collapseWS s)) := by
  unfold post_process_sql
  simp [strIn_users_pyUpper]

/-- C4 (code bug): for the question `查询张三的订单` and candidate
`SELECT * FROM users` — 张三 absent from the SQL, `users` referenced, no
`WHERE` — `_post_process_sql` returns the statement unchanged (modulo the
trailing separator) and injects no `WHERE` clause, contrary to the spec and to
the function's own inline comment. -/
theorem post_process_no_where_for_zhangsan :
    post_process_sql (L ("SELECT * FROM users")) (L ("查询张三的订单"))
      = L ("SELECT * FROM users;") ∧
    strIn (L ("WHERE"))
      (post_process_sql (L ("SELECT * FROM users")) (L ("查询张三的订单")))
      = false := by
  constructor <;> decide

/-- When the head is not whitespace, whitespace collapsing keeps it. -/
theorem collapseWS_cons_head {d : Char} (t : List Char) (h : isWS d = false) :
    ∃ r, collapseWS (d :: t) = d :: r := by
  cases t with
  | nil => exact ⟨[], by simp [collapseWS, h]⟩
  | cons e t2 => exact ⟨collapseWS (e :: t2), by simp [collapseWS, h]⟩

/-- The output of whitespace collapsing is in normal form. -/
theorem normed_collapseWS (l : List Char) : normed (collapseWS l) = true := by
  induction l using collapseWS.induct with
  | case1 => rfl
  | case2 c h =>
    rw [collapseWS, if_pos h]
    decide
  | case3 c h =>
    have h' : isWS c = false := by simpa using h
    rw [collapseWS, if_neg h]
    simp [normed, headNotWW, h']
  | case4 c d t hws ih =>
    rw [collapseWS, if_pos hws]
    exact ih
  | case5 c d t hws ih =>
    have hws' : ¬(isWS c && isWS d) = true := hws
    rw [collapseWS, if_neg hws']
    by_cases hc : isWS c = true
    · have hd : isWS d = false := by
        cases h : isWS d
        · rfl
        · exact absurd (by rw [hc, h]; rfl) hws'
      rcases collapseWS_cons_head t hd with ⟨r, hr⟩
      rw [if_pos hc, hr]
      rw [hr] at ih
      have hstep : normed (' ' :: d :: r)
          = (((!isWS ' ') || (' ' = ' ')) && headNotWW ' ' (d :: r)
              && normed (d :: r)) := rfl
      rw [hstep, ih]
      simp [headNotWW, hd]
    · have hc' : isWS c = false := by simpa using hc
      rw [if_neg hc]
      cases hcoll : collapseWS (d :: t) with
      | nil => simp [normed, headNotWW, hc']
      | cons x r =>
        rw [hcoll] at ih
        have hstep : normed (c :: x :: r)
            = (((!isWS c) || (c = ' ')) && headNotWW c (x :: r)
                && normed (x :: r)) := rfl
        rw [hstep, ih]
        simp [headNotWW, hc']

theorem normed_cons (c : Char) (t : List Char) :
    normed (c :: t)
      = (((!isWS c) || (c = ' ')) && headNotWW c t && normed t) := rfl

theorem normed_nil : normed [] = true := rfl

theorem bandE {a b : Bool} (h : (a && b) = true) : a = true ∧ b = true := by
  cases a <;> simp_all

theorem bandI {a b : Bool} (ha : a = true) (hb : b = true) :
    (a && b) = true := by
  simp [ha, hb]

theorem borE {a b : Bool} (h : (a || b) = true) : a = true ∨ b = true := by
  cases a <;> simp_all

theorem normed_tail {c : Char} {t : List Char} (h : normed (c :: t) = true) :
    normed t = true := by
  rw [normed_cons] at h
  exact (bandE h).2

/-- Text in normal form is a fixed point of whitespace collapsing. -/
theorem collapseWS_of_normed (l : List Char) :
    normed l = true → collapseWS l = l := by
  induction l using collapseWS.induct with
  | case1 => intro _; rfl
  | case2 c hws =>
    intro h
    rw [normed_cons] at h
    rcases bandE h with ⟨h1, -⟩
    rcases bandE h1 with ⟨h2, -⟩
    have hc : c = ' ' := by
      rcases borE h2 with h3 | h3
      · rw [hws] at h3; cases h3
      · exact of_decide_eq_true h3
    rw [collapseWS, if_pos hws, hc]
  | case3 c hws =>
    intro _
    rw [collapseWS, if_neg hws]
  | case4 c d t hws ih =>
    intro h
    exfalso
    rw [normed_cons] at h
    rcases bandE h with ⟨h1, -⟩
    rcases bandE h1 with ⟨-, h2⟩
    have : headNotWW c (d :: t) = !(isWS c && isWS d) := rfl
    rw [this, hws] at h2
    cases h2
  | case5 c d t hws ih =>
    intro h
    rw [collapseWS, if_neg hws]
    rw [normed_cons] at h
    rcases bandE h with ⟨h1, h3⟩
    rcases bandE h1 with ⟨h2, -⟩
    rw [ih h3]
    by_cases hc : isWS c = true
    · have : c = ' ' := by
        rcases borE h2 with h4 | h4
        · rw [hc] at h4; cases h4
        · exact of_decide_eq_true h4
      rw [if_pos hc, this]
    · rw [if_neg hc]

theorem normed_dropWhile (l : List Char) (h : normed l = true) :
    normed (l.dropWhile fun c => isWS c) = true := by
  induction l with
  | nil => exact h
  | cons c t ih =>
    rw [List.dropWhile_cons]
    split
    · exact ih (normed_tail h)
    · exact h

theorem rstripP_prefix (p : Char → Bool) (l : List Char) :
    rstripP p l <+: l := by
  induction l with
  | nil => exact List.prefix_refl _
  | cons c t ih =>
    simp only [rstripP]
    split
    · exact List.nil_prefix
    · exact List.cons_prefix_cons.2 ⟨rfl, ih⟩

theorem normed_rstripP (l : List Char) (h : normed l = true) :
    normed (rstripP isWS l) = true := by
  induction l with
  | nil => exact h
  | cons c t ih =>
    simp only [rstripP]
    split
    · rfl
    · have h3 := normed_tail h
      have hr := ih h3
      rw [normed_cons] at h ⊢
      rcases bandE h with ⟨h1, -⟩
      rcases bandE h1 with ⟨h2, hh⟩
      refine bandI (bandI h2 ?_) hr
      cases hcr : rstripP isWS t with
      | nil => rfl
      | cons h0 r2 =>
        rcases (by rw [← hcr]; exact rstripP_prefix isWS t :
            (h0 :: r2) <+: t) with ⟨u, hu⟩
        have ht : t = h0 :: (r2 ++ u) := by rw [← hu]; rfl
        rw [ht] at hh
        exact hh

theorem normed_append_last {l : List Char} {c : Char}
    (h : normed l = true) (hc : isWS c = false) :
    normed (l ++ [c]) = true := by
  induction l with
  | nil => simp [normed_cons, headNotWW, hc, normed_nil]
  | cons x t ih =>
    rw [List.cons_append, normed_cons]
    rw [normed_cons] at h
    rcases bandE h with ⟨h1, h3⟩
    rcases bandE h1 with ⟨h2, hh⟩
    refine bandI (bandI h2 ?_) (ih h3)
    cases t with
    | nil =>
      have : headNotWW x ([] ++ [c]) = !(isWS x && isWS c) := rfl
      rw [this, hc]
      simp
    | cons y t2 => exact hh

theorem rstripP_idem (p : Char → Bool) (l : List Char) :
    rstripP p (rstripP p l) = rstripP p l := by
  induction l with
  | nil => rfl
  | cons c t ih =>
    simp only [rstripP]
    split
    · rfl
    · next hcond =>
      simp only [rstripP, ih]
      rw [if_neg hcond]

theorem rstripP_append_last (p : Char → Bool) (l : List Char) {c : Char}
    (hc : p c = false) : rstripP p (l ++ [c]) = l ++ [c] := by
  induction l with
  | nil => simp [rstripP, hc]
  | cons x t ih =>
    rw [List.cons_append]
    simp only [rstripP, ih]
    rw [if_neg]
    simp

theorem head?_dropWhile {p : Char → Bool} {l : List Char} {c : Char}
    (h : (l.dropWhile p).head? = some c) : p c = false := by
  induction l with
  | nil => cases h
  | cons x t ih =>
    rw [List.dropWhile_cons] at h
    split at h
    · exact ih h
    · next hx =>
      rw [List.head?_cons, Option.some_inj] at h
      rw [← h]
      simpa using hx

/-- The head of stripped text is never whitespace. -/
theorem pyStrip_head_not_ws {x : List Char} {c : Char} {r : List Char}
    (h : pyStrip x = c :: r) : isWS c = false := by
  unfold pyStrip at h
  have hpre := rstripP_prefix isWS (x.dropWhile fun c => isWS c)
  rw [h] at hpre
  rcases hpre with ⟨u, hu⟩
  have hhd : (x.dropWhile fun c => isWS c).head? = some c := by
    rw [← hu]; rfl
  exact head?_dropWhile hhd

/-- Stripping is idempotent. -/
theorem pyStrip_pyStrip (x : List Char) : pyStrip (pyStrip x) = pyStrip x := by
  have hdw : (pyStrip x).dropWhile (fun c => isWS c) = pyStrip x := by
    cases h : pyStrip x with
    | nil => rfl
    | cons c r =>
      rw [List.dropWhile_cons, if_neg]
      rw [pyStrip_head_not_ws h]
      simp
  show rstripP isWS ((pyStrip x).dropWhile fun c => isWS c) = pyStrip x
  rw [hdw]
  show rstripP isWS (rstripP isWS (x.dropWhile fun c => isWS c)) = pyStrip x
  rw [rstripP_idem]
  rfl

/-- Appending the separator to stripped text leaves nothing to strip. -/
theorem pyStrip_append_semi (x : List Char) :
    pyStrip (pyStrip x ++ [';']) = pyStrip x ++ [';'] := by
  have hdw : (pyStrip x ++ [';']).dropWhile (fun c => isWS c)
      = pyStrip x ++ [';'] := by
    cases h : pyStrip x with
    | nil => rfl
    | cons c r =>
      rw [List.cons_append, List.dropWhile_cons, if_neg]
      rw [pyStrip_head_not_ws h]
      simp
  show rstripP isWS ((pyStrip x ++ [';']).dropWhile fun c => isWS c)
      = pyStrip x ++ [';']
  rw [hdw]
  exact rstripP_append_last isWS _ (by decide)

theorem ensureSemi_idem (l : List Char) :
    ensureSemi (ensureSemi l) = ensureSemi l := by
  by_cases h : [';'].isSuffixOf l = true
  · have hl : ensureSemi l = l := by rw [ensureSemi, if_pos h]
    rw [hl, hl]
  · have hl : ensureSemi l = l ++ [';'] := by rw [ensureSemi, if_neg h]
    rw [hl, ensureSemi, if_pos]
    exact List.isSuffixOf_iff_suffix.2 (List.suffix_append l [';'])

/-- Normalizing an already-normalized-and-terminated statement changes
nothing. -/
theorem norm_ensureSemi_fix (s : List Char) :
    pyStrip (collapseWS (ensureSemi (pyStrip (collapseWS s))))
      = ensureSemi (pyStrip (collapseWS s)) := by
  have hnormed : normed (pyStrip (collapseWS s)) = true :=
    normed_rstripP _ (normed_dropWhile _ (normed_collapseWS s))
  by_cases h : [';'].isSuffixOf (pyStrip (collapseWS s)) = true
  · rw [ensureSemi, if_pos h, collapseWS_of_normed _ hnormed, pyStrip_pyStrip]
  · rw [ensureSemi, if_neg h,
      collapseWS_of_normed _ (normed_append_last hnormed (by decide)),
      pyStrip_append_semi]

/-- C8: `_post_process_sql` is idempotent — the whitespace/terminator
normalization is a projection and the repair branch can never fire. -/
theorem post_process_sql_idempotent (s q : List Char) :
    post_process_sql (post_process_sql s q) q = post_process_sql s q := by
  rw [post_process_sql_eq (post_process_sql s q) q, post_process_sql_eq s q,
    norm_ensureSemi_fix s]
  exact ensureSemi_idem _

theorem strIn_append_left {p a : List Char} (b : List Char)
    (h : strIn p a = true) : strIn p (a ++ b) = true :=
  strIn_iff.2 ((strIn_iff.1 h).trans ⟨[], b, by simp⟩)

/-- The three-part totality property for a statement of the shape
`prefix ++ digits ++ ";"` produced by the price rules. -/
theorem price_sql_shape (a d : List Char) (hne : a ≠ [])
    (hsel : strIn (L ("SELECT")) a = true) :
    (a ++ d ++ L (";")) ≠ [] ∧
    strIn (L ("SELECT")) (a ++ d ++ L (";")) = true ∧
    (a ++ d ++ L (";")).getLast? = some ';' := by
  refine ⟨List.append_ne_nil_of_left_ne_nil
      (List.append_ne_nil_of_left_ne_nil hne d) _,
    strIn_append_left _ (strIn_append_left _ hsel), ?_⟩
  rw [List.getLast?_append]
  rfl

/-- C5: the fallback generator is total — for every question (and intent) it
returns a nonempty statement containing `SELECT` and ending in `';'`; on an
unrecognized question the default rule yields the bounded
`SELECT * FROM order_details LIMIT 10;`. -/
theorem generate_sql_by_intent_total (q : List Char) (intent : Intent) :
    (generate_sql_by_intent q intent ≠ [] ∧
     strIn (L ("SELECT")) (generate_sql_by_intent q intent) = true ∧
     (generate_sql_by_intent q intent).getLast? = some ';') ∧
    generate_sql_by_intent (L ("你好世界")) intent = defaultSql := by
  refine ⟨?_, rfl⟩
  unfold generate_sql_by_intent
  by_cases h1 : strIn (L ("所有用户")) q = true
  · rw [if_pos h1]; exact ⟨by decide, by decide, by decide⟩
  rw [if_neg h1]
  by_cases h2 : strIn (L ("所有商品")) q = true
  · rw [if_pos h2]; exact ⟨by decide, by decide, by decide⟩
  rw [if_neg h2]
  by_cases h3 : strIn (L ("所有订单")) q = true
  · rw [if_pos h3]; exact ⟨by decide, by decide, by decide⟩
  rw [if_neg h3]
  by_cases h4 : (strIn (L ("张三")) q && strIn (L ("订单")) q) = true
  · rw [if_pos h4]; exact ⟨by decide, by decide, by decide⟩
  rw [if_neg h4]
  by_cases h5 : (strIn (L ("李四")) q && strIn (L ("订单")) q) = true
  · rw [if_pos h5]; exact ⟨by decide, by decide, by decide⟩
  rw [if_neg h5]
  by_cases h6 : strIn (L ("手机")) (pyLower q) = true
  · rw [if_pos h6]; exact ⟨by decide, by decide, by decide⟩
  rw [if_neg h6]
  by_cases h7 : strIn (L ("电脑")) (pyLower q) = true
  · rw [if_pos h7]; exact ⟨by decide, by decide, by decide⟩
  rw [if_neg h7]
  by_cases h8 : strIn (L ("平板")) (pyLower q) = true
  · rw [if_pos h8]; exact ⟨by decide, by decide, by decide⟩
  rw [if_neg h8]
  by_cases h9 : (strIn (L ("价格高于")) q || strIn (L ("价格大于")) q) = true
  · rw [if_pos h9]
    cases hm : searchNumAfter (L ("高于大于")) q with
    | none => exact ⟨by decide, by decide, by decide⟩
    | some d => exact price_sql_shape _ d (by decide) (by decide)
  rw [if_neg h9]
  by_cases h10 : (strIn (L ("价格低于")) q || strIn (L ("价格小于")) q) = true
  · rw [if_pos h10]
    cases hm : searchNumAfter (L ("低于小于")) q with
    | none => exact ⟨by decide, by decide, by decide⟩
    | some d => exact price_sql_shape _ d (by decide) (by decide)
  rw [if_neg h10]
  by_cases h11 : (strIn (L ("统计")) q || strIn (L ("总数")) q) = true
  · rw [if_pos h11]
    by_cases h12 : (strIn (L ("用户")) q && strIn (L ("订单")) q) = true
    · rw [if_pos h12]; exact ⟨by decide, by decide, by decide⟩
    rw [if_neg h12]
    by_cases h13 : (strIn (L ("分类")) q && strIn (L ("商品")) q) = true
    · rw [if_pos h13]; exact ⟨by decide, by decide, by decide⟩
    rw [if_neg h13]
    by_cases h14 : strIn (L ("订单")) q = true
    · rw [if_pos h14]; exact ⟨by decide, by decide, by decide⟩
    rw [if_neg h14]
    exact ⟨by decide, by decide, by decide⟩
  rw [if_neg h11]
  by_cases h15 : (strIn (L ("详情")) q || strIn (L ("详细")) q) = true
  · rw [if_pos h15]; exact ⟨by decide, by decide, by decide⟩
  rw [if_neg h15]
  exact ⟨by decide, by decide, by decide⟩

/-- C6 counterexample: the question `统计每个分类的商品数量价格高于均值`
contains the price phrase `价格高于` but no digits, and also satisfies the
aggregation rule's trigger (`统计`+`分类`+`商品`); the claim predicts the
aggregation SQL, but the generator returns the bounded default (the Python
`elif` chain skips every later rule once the price arm is selected). -/
theorem price_rule_skips_later_rules :
    generate_sql_by_intent (L ("统计每个分类的商品数量价格高于均值"))
        (analyze_question_intent (L ("统计每个分类的商品数量价格高于均值")))
      = defaultSql ∧
    generate_sql_by_intent (L ("统计每个分类的商品数量价格高于均值"))
        (analyze_question_intent (L ("统计每个分类的商品数量价格高于均值")))
      ≠ catCountSql ∧
    strIn (L ("价格高于")) (L ("统计每个分类的商品数量价格高于均值")) = true ∧
    searchNumAfter (L ("高于大于")) (L ("统计每个分类的商品数量价格高于均值"))
      = none ∧
    (strIn (L ("分类")) (L ("统计每个分类的商品数量价格高于均值"))
      && strIn (L ("商品")) (L ("统计每个分类的商品数量价格高于均值"))) = true := by
  refine ⟨by decide, by decide, by decide, by decide, by decide⟩

/-- C6 (amended): when a price-threshold phrase of either family
(`价格高于`/`价格大于`, handled by the `>` arm, or — with the `>` arm not
selected — `价格低于`/`价格小于`, handled by the `<` arm) is present but its
numeric-capture pattern extracts no digits, and no earlier rule fired, the
generator does not continue to the aggregation or detail rules; it returns
the bounded default statement. -/
theorem price_rule_no_digits_default (q : List Char) (intent : Intent)
    (h1 : strIn (L ("所有用户")) q = false)
    (h2 : strIn (L ("所有商品")) q = false)
    (h3 : strIn (L ("所有订单")) q = false)
    (h4 : (strIn (L ("张三")) q && strIn (L ("订单")) q) = false)
    (h5 : (strIn (L ("李四")) q && strIn (L ("订单")) q) = false)
    (h6 : strIn (L ("手机")) (pyLower q) = false)
    (h7 : strIn (L ("电脑")) (pyLower q) = false)
    (h8 : strIn (L ("平板")) (pyLower q) = false)
    (hp : ((strIn (L ("价格高于")) q || strIn (L ("价格大于")) q) = true ∧
           searchNumAfter (L ("高于大于")) q = none) ∨
          ((strIn (L ("价格高于")) q || strIn (L ("价格大于")) q) = false ∧
           (strIn (L ("价格低于")) q || strIn (L ("价格小于")) q) = true ∧
           searchNumAfter (L ("低于小于")) q = none)) :
    generate_sql_by_intent q intent = defaultSql := by
  unfold generate_sql_by_intent
  rw [if_neg (by simp [h1]), if_neg (by simp [h2]), if_neg (by simp [h3]),
    if_neg (by simp [h4]), if_neg (by simp [h5]), if_neg (by simp [h6]),
    if_neg (by simp [h7]), if_neg (by simp [h8])]
  rcases hp with ⟨hp1, hd1⟩ | ⟨hng, hp2, hd2⟩
  · rw [if_pos hp1, hd1]
  · rw [if_neg (by simp [hng]), if_pos hp2, hd2]

/-- C6 witness, exercising the `<` family: `查询价格低于的商品详情` contains
`价格低于` with no digits (and the detail keyword `详情`, a later rule), yet
the generator returns the default. -/
theorem price_rule_no_digits_default_witness :
    generate_sql_by_intent (L ("查询价格低于的商品详情"))
        (analyze_question_intent (L ("查询价格低于的商品详情")))
      = defaultSql :=
  price_rule_no_digits_default _ _ (by decide) (by decide) (by decide)
    (by decide) (by decide) (by decide) (by decide) (by decide)
    (Or.inr ⟨by decide, by decide, by decide⟩)

/-- C9: end-to-end on the fallback path — the question
`统计每个分类的商品数量` generates exactly the category-count SQL, and with
the two categories 手机↦2, 电脑↦1 the summary renders exactly
`统计结果: 手机: 2, 电脑: 1`. -/
theorem end_to_end_category_count :
    (smart_fallback
        (fun _ => { success := true,
                    columns := [L ("category"), L ("product_count")],
                    data := [[(L ("category"), PyVal.s (L ("手机"))),
                              (L ("product_count"), PyVal.i 2)],
                             [(L ("category"), PyVal.s (L ("电脑"))),
                              (L ("product_count"), PyVal.i 1)]],
                    row_count := 2 })
        (L ("统计每个分类的商品数量"))).1.sql = some catCountSql ∧
    (smart_fallback
        (fun _ => { success := true,
                    columns := [L ("category"), L ("product_count")],
                    data := [[(L ("category"), PyVal.s (L ("手机"))),
                              (L ("product_count"), PyVal.i 2)],
                             [(L ("category"), PyVal.s (L ("电脑"))),
                              (L ("product_count"), PyVal.i 1)]],
                    row_count := 2 })
        (L ("统计每个分类的商品数量"))).1.summary
      = some (L ("统计结果: 手机: 2, 电脑: 1")) := by
  constructor <;> decide

/-- C10: the fallback path executes the generator's output directly — its
trace is exactly one `executeEv` carrying the raw `_generate_sql_by_intent`
output, it contains no `validateEv` (so neither the keyword gate nor a
dry-run runs), and the stored result is the executor applied to that raw
statement. -/
theorem smart_fallback_never_validates
    (execQ : List Char → ExecResult) (q : List Char) :
    (smart_fallback execQ q).2
      = [Event.executeEv (generate_sql_by_intent q (analyze_question_intent q))] ∧
    (∀ s, Event.validateEv s ∉ (smart_fallback execQ q).2) ∧
    (smart_fallback execQ q).1.result
      = some (execQ (generate_sql_by_intent q (analyze_question_intent q))) := by
  refine ⟨rfl, ?_, rfl⟩
  intro s hs
  have h2 : (smart_fallback execQ q).2
      = [Event.executeEv (generate_sql_by_intent q (analyze_question_intent q))] :=
    rfl
  rw [h2] at hs
  simp at hs

/-- C1 (amended): when the model path reaches validation and the validator
rejects the post-processed candidate, `convert` terminates the request with
`success=False` and the `SQL语法错误` message — it does not fall back and it
executes nothing (the trace holds only the validation event).  The fallback is
taken only for an unavailable model, empty generation, or failed extraction. -/
theorem convert_validation_reject_is_terminal
    (generate : List Char → List Char) (dryRun : List Char → Option (List Char))
    (execQ : List Char → ExecResult) (q txt c msg : List Char)
    (hgen : generate (build_context_aware_prompt q) = txt)
    (hne : txt.isEmpty = false)
    (hext : extract_sql_advanced txt = some c)
    (hval : validate_sql dryRun (post_process_sql c q) = (false, some msg)) :
    convert true generate dryRun execQ q
      = ({ success := false,
           error := some (L ("SQL语法错误: ") ++ msg),
           question := q, sql := some (post_process_sql c q) },
         [Event.validateEv (post_process_sql c q)]) := by
  simp only [convert, hgen, hne, hext, Bool.not_true, Bool.false_eq_true,
    if_false, ite_false]
  rw [hval]
  simp

/-- C1 witness: a concrete run hitting the security rejection. -/
theorem convert_validation_reject_is_terminal_witness :
    convert true (fun _ => L ("SELECT drop_col FROM users;")) (fun _ => none)
        (fun _ => ({ success := true } : ExecResult)) (L ("查询用户"))
      = ({ success := false,
           error := some (L ("SQL语法错误: ") ++ forbiddenMsg (L ("DROP"))),
           question := L ("查询用户"),
           sql := some (post_process_sql (L ("SELECT drop_col FROM users;"))
             (L ("查询用户"))) },
         [Event.validateEv (post_process_sql (L ("SELECT drop_col FROM users;"))
           (L ("查询用户")))]) :=
  convert_validation_reject_is_terminal _ _ _ _ _ _ _ rfl (by decide)
    (by decide) (by decide)

/-- C1 counterexample: on a concrete model output whose post-processed
candidate the validator rejects, `convert` produces an error result — no
fallback, no execution, no summary — contradicting the claimed
`FALLBACK → EXECUTED → SUMMARIZED → DONE` recovery. -/
theorem validation_reject_no_fallback_counterexample :
    (validate_sql (fun _ => none)
      (post_process_sql (L ("SELECT drop_col FROM users;"))
        (L ("查询用户")))).1 = false ∧
    (convert true (fun _ => L ("SELECT drop_col FROM users;")) (fun _ => none)
        (fun _ => ({ success := true } : ExecResult))
        (L ("查询用户"))).1.success = false ∧
    (convert true (fun _ => L ("SELECT drop_col FROM users;")) (fun _ => none)
        (fun _ => ({ success := true } : ExecResult))
        (L ("查询用户"))).1.error
      = some (L ("SQL语法错误: ") ++ forbiddenMsg (L ("DROP"))) ∧
    (convert true (fun _ => L ("SELECT drop_col FROM users;")) (fun _ => none)
        (fun _ => ({ success := true } : ExecResult))
        (L ("查询用户"))).1.summary = none ∧
    (convert true (fun _ => L ("SELECT drop_col FROM users;")) (fun _ => none)
        (fun _ => ({ success := true } : ExecResult))
        (L ("查询用户"))).1.result = none ∧
    (convert true (fun _ => L ("SELECT drop_col FROM users;")) (fun _ => none)
        (fun _ => ({ success := true } : ExecResult))
        (L ("查询用户"))).2
      = [Event.validateEv (L ("SELECT drop_col FROM users;"))] := by
  refine ⟨by decide, by decide, by decide, by decide, by decide, by decide⟩

/-- The summarizer renders an execution failure as failure text. -/
theorem generate_intelligent_summary_failure (q sql : List Char)
    (r : ExecResult) (h : r.success = false) :
    generate_intelligent_summary q sql r
      = L ("查询执行失败: ") ++ r.error.getD (L ("未知错误")) := by
  unfold generate_intelligent_summary
  simp [h]

/-- Helper: the successful model path of `convert` (validation passed). -/
theorem convert_model_success
    (generate : List Char → List Char) (dryRun : List Char → Option (List Char))
    (execQ : List Char → ExecResult) (q txt c : List Char)
    (hgen : generate (build_context_aware_prompt q) = txt)
    (hne : txt.isEmpty = false)
    (hext : extract_sql_advanced txt = some c)
    (hok : (validate_sql dryRun (post_process_sql c q)).1 = true) :
    convert true generate dryRun execQ q
      = ({ success := true, question := q, sql := some (post_process_sql c q),
           result := some (execQ (post_process_sql c q)),
           summary := some (generate_intelligent_summary q
             (post_process_sql c q) (execQ (post_process_sql c q))),
           method := some (L ("llm")),
           intent_analysis := some (analyze_question_intent q) },
         [Event.validateEv (post_process_sql c q),
          Event.executeEv (post_process_sql c q)]) := by
  simp only [convert, hgen, hne, hext, Bool.not_true, Bool.false_eq_true,
    if_false, ite_false, hok]

/-- C3 (amended): an execution failure reported by the storage collaborator is
NOT terminal and is NOT surfaced in `error` — on both paths the result carries
`success=True`, `error` absent, and the failure only inside the summary text
`查询执行失败: …`. -/
theorem exec_failure_not_terminal
    (generate : List Char → List Char) (dryRun : List Char → Option (List Char))
    (execQ : List Char → ExecResult) (q txt c : List Char)
    (hgen : generate (build_context_aware_prompt q) = txt)
    (hne : txt.isEmpty = false)
    (hext : extract_sql_advanced txt = some c)
    (hok : (validate_sql dryRun (post_process_sql c q)).1 = true)
    (hfb : (execQ (generate_sql_by_intent q
      (analyze_question_intent q))).success = false)
    (hm : (execQ (post_process_sql c q)).success = false) :
    ((smart_fallback execQ q).1.success = true ∧
     (smart_fallback execQ q).1.error = none ∧
     (smart_fallback execQ q).1.summary
       = some (L ("查询执行失败: ")
           ++ (execQ (generate_sql_by_intent q
                (analyze_question_intent q))).error.getD (L ("未知错误")))) ∧
    ((convert true generate dryRun execQ q).1.success = true ∧
     (convert true generate dryRun execQ q).1.error = none ∧
     (convert true generate dryRun execQ q).1.summary
       = some (L ("查询执行失败: ")
           ++ (execQ (post_process_sql c q)).error.getD (L ("未知错误")))) := by
  constructor
  · refine ⟨rfl, rfl, ?_⟩
    have h1 : (smart_fallback execQ q).1.summary
        = some (generate_intelligent_summary q
            (generate_sql_by_intent q (analyze_question_intent q))
            (execQ (generate_sql_by_intent q (analyze_question_intent q)))) :=
      rfl
    rw [h1, generate_intelligent_summary_failure _ _ _ hfb]
  · rw [convert_model_success generate dryRun execQ q txt c hgen hne hext hok]
    refine ⟨rfl, rfl, ?_⟩
    simp only [Option.some_inj]
    rw [generate_intelligent_summary_failure _ _ _ hm]

/-- C3 witness: a concrete run where the engine reports `no such table: users`
on both paths; the failure lands in the summary, not in `error`. -/
theorem exec_failure_not_terminal_witness :
    (((smart_fallback
        (fun _ => ({ success := false, error := some (L ("no such table: users")) } : ExecResult))
        (L ("查询用户"))).1.success = true ∧
      (smart_fallback
        (fun _ => ({ success := false, error := some (L ("no such table: users")) } : ExecResult))
        (L ("查询用户"))).1.error = none ∧
      (smart_fallback
        (fun _ => ({ success := false, error := some (L ("no such table: users")) } : ExecResult))
        (L ("查询用户"))).1.summary
        = some (L ("查询执行失败: ") ++ L ("no such table: users"))) ∧
     ((convert true (fun _ => L ("SELECT name FROM users;")) (fun _ => none)
        (fun _ => ({ success := false, error := some (L ("no such table: users")) } : ExecResult))
        (L ("查询用户"))).1.success = true ∧
      (convert true (fun _ => L ("SELECT name FROM users;")) (fun _ => none)
        (fun _ => ({ success := false, error := some (L ("no such table: users")) } : ExecResult))
        (L ("查询用户"))).1.error = none ∧
      (convert true (fun _ => L ("SELECT name FROM users;")) (fun _ => none)
        (fun _ => ({ success := false, error := some (L ("no such table: users")) } : ExecResult))
        (L ("查询用户"))).1.summary
        = some (L ("查询执行失败: ") ++ L ("no such table: users")))) :=
  exec_failure_not_terminal
    (fun _ => L ("SELECT name FROM users;")) (fun _ => none)
    (fun _ => ({ success := false, error := some (L ("no such table: users")) } : ExecResult))
    (L ("查询用户")) (L ("SELECT name FROM users;"))
    (L ("SELECT name FROM users;")) rfl (by decide) (by decide) (by decide)
    (by decide) (by decide)

/-- C3 counterexample: at a concrete engine failure the result reports
`success=True` with no `error` field — the failure is not terminal and not
surfaced verbatim in `ConversionResult.error` as claimed. -/
theorem exec_failure_counterexample :
    (smart_fallback
        (fun _ => ({ success := false,
                     error := some (L ("no such table: nope")) } : ExecResult))
        (L ("查询所有用户信息"))).1.success = true ∧
    (smart_fallback
        (fun _ => ({ success := false,
                     error := some (L ("no such table: nope")) } : ExecResult))
        (L ("查询所有用户信息"))).1.error = none ∧
    (smart_fallback
        (fun _ => ({ success := false,
                     error := some (L ("no such table: nope")) } : ExecResult))
        (L ("查询所有用户信息"))).1.summary
      = some (L ("查询执行失败: no such table: nope")) := by
  refine ⟨by decide, by decide, by decide⟩

/-- C7: when the first (most specific) pattern yields two matches and only the
second passes structural validation, `extract` returns the second candidate
(stripped, with a trailing `';'` ensured) — matches of a tier are tried in
order of appearance and invalid ones are skipped, without falling through to a
looser pattern. -/
theorem extract_returns_second_candidate (t c1 c2 : List Char)
    (h : findall1 (cleanText t) = [c1, c2])
    (h1 : validate_sql_candidate (pyStrip c1) = false)
    (h2 : validate_sql_candidate (pyStrip c2) = true) :
    extract_sql_advanced t = some (ensureSemi (pyStrip c2)) := by
  simp only [extract_sql_advanced, h, firstValidated, h1, h2,
    Bool.false_eq_true, if_false, ite_false, if_true, ite_true]

/-- C7 witness: model text holding an invalid statement (empty projection)
followed by a valid one; extraction returns the second. -/
theorem extract_returns_second_candidate_witness :
    extract_sql_advanced (L ("SELECT FROM users; SELECT * FROM users;"))
      = some (L ("SELECT * FROM users;")) :=
  extract_returns_second_candidate (L ("SELECT FROM users; SELECT * FROM users;"))
    (L ("SELECT FROM users;")) (L ("SELECT * FROM users;"))
    (by decide) (by decide) (by decide)

end T2S
